import Mathlib

/-!
Shallow embedding of the AnnChor ballet action-anticipation web client.

The embedded code is the frontend of the repository: the `VideoPlayer`
component (per-segment prediction switching while the video plays and the
top-5 rendering), the `VideoUpload` component (file-extension gate, model
selection, request submission and error handling) and the
`PredictionDisplay` component (confidence rendering and bar widths).

Modelling conventions: JavaScript numbers are modelled as rationals (`ℚ`),
strings as Lean `String`s, and file names as `List Char` where JavaScript
index arithmetic (`lastIndexOf` and `substring`) matters.  React state is
modelled as explicit state records, event handlers as state-transition
functions, and issued network requests as explicit emission lists.
-/

/-- One ranked class prediction as received from the backend
(`interface Prediction` in the frontend). -/
structure Prediction where
  action_id : Int
  action_name : String
  confidence : ℚ
deriving DecidableEq

/-- One segment's prediction result (`interface PredictionResult` in
`VideoPlayer`); the optional `timestamp` and `segment` fields of the
interface are irrelevant to the embedded behaviour and omitted. -/
structure PredictionResult where
  top_prediction : Prediction
  top5_predictions : List Prediction
deriving DecidableEq

/-- The continuous-prediction response payload
(`interface ContinuousPredictions` in `VideoPlayer`). -/
structure ContinuousPredictions where
  video_duration : ℚ
  num_predictions : Nat
  predictions : List PredictionResult
deriving DecidableEq

/-- The `VideoPlayer` state touched by `handleTimeUpdate`:
`displayedPrediction`, `currentSegment` and `currentTime`. -/
structure PlayerState where
  displayedPrediction : Prediction
  currentSegment : Nat
  currentTime : ℚ
deriving DecidableEq

/-- `Math.floor(time / 10)`: the segment index the client computes for a
playback time (line `const segmentIndex = Math.floor(time / 10)`). -/
def segmentIndexOf (time : ℚ) : Int :=
  ⌊time / 10⌋

/-- `handleTimeUpdate` of `VideoPlayer`: store the current time, compute
`segmentIndex = Math.floor(time / 10)`, and when `segmentIndex` is in range
and differs from `currentSegment`, switch `displayedPrediction` to that
segment's `top_prediction` and update `currentSegment`.  The `none` fallback
of the lookup is unreachable for the nonnegative times a media element
reports, since the guard already bounds the index by the list length. -/
def handleTimeUpdate (predictions : List PredictionResult) (s : PlayerState)
    (time : ℚ) : PlayerState :=
  let segmentIndex := segmentIndexOf time
  if segmentIndex < (predictions.length : Int) ∧
      segmentIndex ≠ (s.currentSegment : Int) then
    match predictions[segmentIndex.toNat]? with
    | some pr =>
        { displayedPrediction := pr.top_prediction
          currentSegment := segmentIndex.toNat
          currentTime := time }
    | none => { s with currentTime := time }
  else
    { s with currentTime := time }

/-- Modelled from the spec: the backend orchestrator that computes the
response's `num_predictions` is not part of the frontend sources; per the
spec, `num_predictions == ceil(D/W)` with `W = 10` seconds and a minimum of
one window even for very short videos. -/
def numPredictionsSpec (D : ℚ) : Nat :=
  max 1 (⌈D / 10⌉).toNat

/-- Sample prediction used by concrete witnesses. -/
def pirouettePred : Prediction :=
  { action_id := 0, action_name := "Pirouette", confidence := 9/10 }

/-- Second sample prediction used by concrete witnesses. -/
def arabesquePred : Prediction :=
  { action_id := 2, action_name := "Arabesque", confidence := 6/10 }

/-- Sample per-segment result used by concrete witnesses. -/
def segResultA : PredictionResult :=
  { top_prediction := pirouettePred
    top5_predictions := [pirouettePred, arabesquePred] }

/-- Second sample per-segment result used by concrete witnesses. -/
def segResultB : PredictionResult :=
  { top_prediction := arabesquePred
    top5_predictions := [arabesquePred, pirouettePred] }

/-- C1: for every playback time `t ≥ 0` the computed segment index is
`⌊t / 10⌋`, so the index is constant exactly on the window
`[10·k, 10·(k+1))` — deterministic 10-second boundaries from `t = 0` — and
whenever that index is in range and differs from the current segment,
`handleTimeUpdate` switches the displayed prediction to that segment's
`top_prediction`. -/
theorem handleTimeUpdate_segment_boundaries
    (preds : List PredictionResult) (s : PlayerState) (t : ℚ) (ht : 0 ≤ t) :
    (10 * (segmentIndexOf t : ℚ) ≤ t ∧ t < 10 * ((segmentIndexOf t : ℚ) + 1)) ∧
    (∀ pr : PredictionResult,
      (segmentIndexOf t).toNat < preds.length →
      (segmentIndexOf t).toNat ≠ s.currentSegment →
      preds[(segmentIndexOf t).toNat]? = some pr →
      (handleTimeUpdate preds s t).displayedPrediction = pr.top_prediction ∧
      (handleTimeUpdate preds s t).currentSegment = (segmentIndexOf t).toNat) := by
  have hnn : 0 ≤ segmentIndexOf t := by
    have : (0 : ℚ) ≤ t / 10 := by positivity
    exact Int.floor_nonneg.mpr this
  constructor
  · constructor
    · have h1 : ((segmentIndexOf t : Int) : ℚ) ≤ t / 10 := Int.floor_le _
      calc 10 * (segmentIndexOf t : ℚ) ≤ 10 * (t / 10) := by linarith
        _ = t := by ring
    · have h2 : t / 10 < (segmentIndexOf t : ℚ) + 1 := Int.lt_floor_add_one _
      calc t = 10 * (t / 10) := by ring
        _ < 10 * ((segmentIndexOf t : ℚ) + 1) := by linarith
  · intro pr hlen hne hget
    have hlt : segmentIndexOf t < (preds.length : Int) := by
      omega
    have hneZ : segmentIndexOf t ≠ (s.currentSegment : Int) := by
      omega
    simp only [handleTimeUpdate, hget]
    rw [if_pos ⟨hlt, hneZ⟩]
    exact ⟨rfl, rfl⟩

/-- Witness for C1: at `t = 12` with two segments and current segment `0`,
the display switches to segment 1's top prediction. -/
theorem handleTimeUpdate_segment_boundaries_witness :
    (handleTimeUpdate [segResultA, segResultB]
        { displayedPrediction := pirouettePred, currentSegment := 0,
          currentTime := 0 } 12).displayedPrediction =
      segResultB.top_prediction ∧
    (handleTimeUpdate [segResultA, segResultB]
        { displayedPrediction := pirouettePred, currentSegment := 0,
          currentTime := 0 } 12).currentSegment =
      (segmentIndexOf 12).toNat :=
  (handleTimeUpdate_segment_boundaries [segResultA, segResultB]
      { displayedPrediction := pirouettePred, currentSegment := 0,
        currentTime := 0 } 12 (by norm_num)).2
    segResultB (by norm_num [segmentIndexOf])
    (by norm_num [segmentIndexOf])
    (by norm_num [segmentIndexOf, segResultA, segResultB])

/-- C2: if `num_predictions = ceil(D/10)` (minimum 1) as the spec requires,
then for every playback time `0 ≤ t < D` the client's segment index
`⌊t / 10⌋` is strictly below `num_predictions`, so the in-range guard in
`handleTimeUpdate` passes for some prediction. -/
theorem segmentIndex_lt_numPredictions (t D : ℚ) (h0 : 0 ≤ t) (htD : t < D) :
    segmentIndexOf t < (numPredictionsSpec D : Int) := by
  have hD : (0 : ℚ) < D := lt_of_le_of_lt h0 htD
  have hDiv : (0 : ℚ) < D / 10 := by positivity
  have hceil : (1 : Int) ≤ ⌈D / 10⌉ := Int.ceil_pos.mpr hDiv
  have hmax : (numPredictionsSpec D : Int) = ⌈D / 10⌉ := by
    unfold numPredictionsSpec
    omega
  rw [hmax]
  apply Int.floor_lt.mpr
  calc t / 10 < D / 10 := by linarith
    _ ≤ (⌈D / 10⌉ : ℚ) := Int.le_ceil _

/-- Witness for C2: a 25-second video has 3 predictions and `t = 21` maps
to segment index 2, strictly below 3. -/
theorem segmentIndex_lt_numPredictions_witness :
    segmentIndexOf 21 < (numPredictionsSpec 25 : Int) :=
  segmentIndex_lt_numPredictions 21 25 (by norm_num) (by norm_num)

/-- C10: on a time update the fields `displayedPrediction` and
`currentSegment` change only when the newly computed index is in range and
differs from the current segment; once the time reaches `10 · length`
(beyond the last segment) both fields stay unchanged; and rewinding into an
earlier in-range segment does update them. -/
theorem handleTimeUpdate_frame_effect
    (preds : List PredictionResult) (s : PlayerState) (t : ℚ) :
    (¬ (segmentIndexOf t < (preds.length : Int) ∧
        segmentIndexOf t ≠ (s.currentSegment : Int)) →
      (handleTimeUpdate preds s t).displayedPrediction =
        s.displayedPrediction ∧
      (handleTimeUpdate preds s t).currentSegment = s.currentSegment) ∧
    ((10 * preds.length : ℚ) ≤ t →
      (handleTimeUpdate preds s t).displayedPrediction =
        s.displayedPrediction ∧
      (handleTimeUpdate preds s t).currentSegment = s.currentSegment) ∧
    (∀ pr : PredictionResult, 0 ≤ t →
      (segmentIndexOf t).toNat < s.currentSegment →
      preds[(segmentIndexOf t).toNat]? = some pr →
      (handleTimeUpdate preds s t).displayedPrediction = pr.top_prediction ∧
      (handleTimeUpdate preds s t).currentSegment = (segmentIndexOf t).toNat) := by
  refine ⟨?_, ?_, ?_⟩
  · intro hguard
    simp only [handleTimeUpdate]
    rw [if_neg hguard]
    exact ⟨rfl, rfl⟩
  · intro hbig
    have hidx : (preds.length : Int) ≤ segmentIndexOf t := by
      apply Int.le_floor.mpr
      rw [le_div_iff₀ (by norm_num : (0:ℚ) < 10)]
      push_cast
      linarith
    simp only [handleTimeUpdate]
    rw [if_neg (by omega)]
    exact ⟨rfl, rfl⟩
  · intro pr ht hrewind hget
    have hnn : 0 ≤ segmentIndexOf t :=
      Int.floor_nonneg.mpr (by positivity)
    have hlen : (segmentIndexOf t).toNat < preds.length := by
      by_contra hc
      push_neg at hc
      rw [List.getElem?_eq_none hc] at hget
      exact Option.noConfusion hget
    have hlt : segmentIndexOf t < (preds.length : Int) := by omega
    have hneZ : segmentIndexOf t ≠ (s.currentSegment : Int) := by omega
    simp only [handleTimeUpdate, hget]
    rw [if_pos ⟨hlt, hneZ⟩]
    exact ⟨rfl, rfl⟩

/-- Witness for C10: with two segments and current segment `1`, a time past
the end (`t = 20 ≥ 10 · 2`) leaves the state unchanged, and rewinding to
`t = 3` switches back to segment 0. -/
theorem handleTimeUpdate_frame_effect_witness :
    ((handleTimeUpdate [segResultA, segResultB]
        { displayedPrediction := arabesquePred, currentSegment := 1,
          currentTime := 15 } 20).currentSegment = 1) ∧
    ((handleTimeUpdate [segResultA, segResultB]
        { displayedPrediction := arabesquePred, currentSegment := 1,
          currentTime := 15 } 3).displayedPrediction =
      segResultA.top_prediction) :=
  ⟨((handleTimeUpdate_frame_effect [segResultA, segResultB]
      { displayedPrediction := arabesquePred, currentSegment := 1,
        currentTime := 15 } 20).2.1 (by norm_num)).2,
    ((handleTimeUpdate_frame_effect [segResultA, segResultB]
      { displayedPrediction := arabesquePred, currentSegment := 1,
        currentTime := 15 } 3).2.2 segResultA (by norm_num)
      (by norm_num [segmentIndexOf])
      (by norm_num [segmentIndexOf, segResultA, segResultB])).1⟩

/-- The two shapes of the `prediction` prop accepted by `VideoPlayer`:
either a continuous-prediction payload or a single result (`Props` in
`VideoPlayer`, discriminated by `"predictions" in prediction`). -/
inductive PredictionPayload where
  | continuous (c : ContinuousPredictions)
  | single (r : PredictionResult)
deriving DecidableEq

/-- The `predictions` list `VideoPlayer` works with: the payload's list for
a continuous response, and a one-element wrapping of a single result. -/
def payloadPredictions : PredictionPayload → List PredictionResult
  | .continuous c => c.predictions
  | .single r => [r]

/-- The initial `displayedPrediction` state: the component reads
`predictions[0].top_prediction`; the read is modelled as an optional value,
`none` standing for the undefined access on an empty list. -/
def initialDisplayedPrediction (p : PredictionPayload) : Option Prediction :=
  (payloadPredictions p).head?.map fun r => r.top_prediction

/-- C9: `VideoPlayer`'s initialisation reads `predictions[0]`, which is
well-defined exactly when the predictions list is nonempty: a single result
is wrapped into a one-element list (so the read always succeeds there), a
continuous payload with at least one prediction yields its first
`top_prediction`, and an empty predictions array leaves the read
undefined. -/
theorem videoPlayer_init_requires_nonempty :
    (∀ r : PredictionResult, payloadPredictions (.single r) = [r]) ∧
    (∀ p : PredictionPayload,
      (initialDisplayedPrediction p).isSome =
        !(payloadPredictions p).isEmpty) ∧
    (∀ d : ℚ, ∀ n : Nat, ∀ r : PredictionResult,
      ∀ rest : List PredictionResult,
      initialDisplayedPrediction (.continuous ⟨d, n, r :: rest⟩) =
        some r.top_prediction) ∧
    (∀ d : ℚ, ∀ n : Nat,
      initialDisplayedPrediction (.continuous ⟨d, n, []⟩) = none) := by
  refine ⟨fun r => rfl, fun p => ?_, fun d n r rest => rfl, fun d n => rfl⟩
  cases h : payloadPredictions p with
  | nil => simp [initialDisplayedPrediction, h]
  | cons x xs => simp [initialDisplayedPrediction, h]

/-- `name.lastIndexOf(".")` on a file name: the index of the last `'.'`
character, or `-1` when none occurs. -/
def jsLastIndexOfDot (s : List Char) : Int :=
  match s.reverse.findIdx? (fun c => c = '.') with
  | some k => ((s.length - 1 - k : Nat) : Int)
  | none => -1

/-- `name.substring(start)` for a single argument: JavaScript clamps a
negative start to `0` and a start past the end to the length, so the
result is the suffix from `max start 0`. -/
def jsSubstringFrom (s : List Char) (start : Int) : List Char :=
  s.drop start.toNat

/-- The `fileExt` computation of `handleVideoUpload`:
`file.name.substring(file.name.lastIndexOf(".")).toLowerCase()`
(ASCII lowercasing suffices for the extensions compared against). -/
def fileExtOf (name : List Char) : List Char :=
  (jsSubstringFrom name (jsLastIndexOfDot name)).map Char.toLower

/-- The `allowedTypes` array of `handleVideoUpload`. -/
def allowedTypes : List (List Char) :=
  [".mp4".toList, ".avi".toList, ".mov".toList, ".mkv".toList,
    ".webm".toList]

/-- The `VideoUpload` component state relevant to the embedded handlers:
`uploadedFile`, `uploadError`, `selectedModel` and the parent-owned
`loading` flag. -/
structure UploadState where
  uploadedFile : Option (List Char)
  uploadError : Option String
  loading : Bool
  selectedModel : String
deriving DecidableEq

/-- The initial `VideoUpload` state: no file, no error, not loading, and
`useState<string>("gru")` for the selected model. -/
def initialUploadState : UploadState :=
  { uploadedFile := none, uploadError := none, loading := false,
    selectedModel := "gru" }

/-- One request issued to
`POST /predict-continuous?model_type={modelType}` with the uploaded file
as form data. -/
structure PredictRequest where
  fileName : List Char
  modelType : String
deriving DecidableEq

/-- The synchronous prefix of `processVideoWithModel`: set `loading`, clear
the errors, and issue the fetch to the predict-continuous endpoint. -/
def startRequest (s : UploadState) (f : List Char) (m : String) :
    UploadState × List PredictRequest :=
  ({ s with loading := true, uploadError := none },
    [{ fileName := f, modelType := m }])

/-- The `setSelectedModel` click handler together with the `useEffect` on
`[selectedModel]`: setting the same value is a no-op (React bails out and
the effect does not re-run); on a change, the effect re-processes the
uploaded video with the new model when a file is present and no request is
loading. -/
def selectModel (s : UploadState) (m : String) :
    UploadState × List PredictRequest :=
  if m = s.selectedModel then (s, [])
  else
    let s1 := { s with selectedModel := m }
    match s1.uploadedFile with
    | some f => if s1.loading = false then startRequest s1 f m else (s1, [])
    | none => (s1, [])

/-- `handleVideoUpload`: clear the upload error, validate the lowercased
final extension against `allowedTypes`; on failure set the upload error and
return without storing the file or issuing a request; on success store the
file and process it with the currently selected model. -/
def handleVideoUpload (s : UploadState) (name : List Char) :
    UploadState × List PredictRequest :=
  let s1 := { s with uploadError := none }
  if fileExtOf name ∈ allowedTypes then
    startRequest { s1 with uploadedFile := some name } name s1.selectedModel
  else
    let msg := "Please upload a video file (.mp4, .avi, .mov, .mkv, .webm)"
    ({ s1 with uploadError := some msg }, [])

/-- The user-interface events that drive `VideoUpload`: the two model
buttons (disabled while loading), choosing a file in the dialog, and the
settling of an in-flight request (the `finally` clause clearing
`loading`). -/
inductive UiEvent where
  | clickGru
  | clickTransformer
  | chooseFile (name : List Char)
  | requestSettled
deriving DecidableEq

/-- One step of the `VideoUpload` user interface: dispatch an event to the
corresponding handler, returning the new state and the requests issued. -/
def uiStep (s : UploadState) (e : UiEvent) :
    UploadState × List PredictRequest :=
  match e with
  | .clickGru => if s.loading then (s, []) else selectModel s "gru"
  | .clickTransformer =>
      if s.loading then (s, []) else selectModel s "transformer"
  | .chooseFile name => handleVideoUpload s name
  | .requestSettled => ({ s with loading := false }, [])

/-- Run a sequence of user-interface events from a state, collecting every
request issued along the way. -/
def uiRun (s : UploadState) : List UiEvent → UploadState × List PredictRequest
  | [] => (s, [])
  | e :: es =>
      let step := uiStep s e
      let rest := uiRun step.1 es
      (rest.1, step.2 ++ rest.2)

/-- The model identifier of a state is always one of the two the buttons
can select. -/
def ModelIdOk (m : String) : Prop :=
  m = "gru" ∨ m = "transformer"

/-- A step preserves the model-identifier invariant and only issues
requests whose identifier is `"gru"` or `"transformer"`. -/
theorem uiStep_modelId (s : UploadState) (e : UiEvent)
    (h : ModelIdOk s.selectedModel) :
    ModelIdOk (uiStep s e).1.selectedModel ∧
    ∀ r ∈ (uiStep s e).2, ModelIdOk r.modelType := by
  cases e with
  | clickGru =>
      by_cases hl : s.loading
      · simp [uiStep, hl, h]
      · simp only [uiStep, hl, if_false, Bool.false_eq_true]
        unfold selectModel
        by_cases he : "gru" = s.selectedModel
        · simp [he, h]
        · rw [if_neg he]
          cases hf : s.uploadedFile with
          | none => simp [ModelIdOk]
          | some f =>
              simp only [hf]
              rw [if_pos (by simp [hl])]
              simp [startRequest, ModelIdOk]
  | clickTransformer =>
      by_cases hl : s.loading
      · simp [uiStep, hl, h]
      · simp only [uiStep, hl, if_false, Bool.false_eq_true]
        unfold selectModel
        by_cases he : "transformer" = s.selectedModel
        · simp [he, h]
        · rw [if_neg he]
          cases hf : s.uploadedFile with
          | none => simp [ModelIdOk]
          | some f =>
              simp only [hf]
              rw [if_pos (by simp [hl])]
              simp [startRequest, ModelIdOk]
  | chooseFile name =>
      simp only [uiStep, handleVideoUpload]
      by_cases hx : fileExtOf name ∈ allowedTypes
      · rw [if_pos hx]
        simp only [startRequest]
        refine ⟨h, ?_⟩
        intro r hr
        simp only [List.mem_singleton] at hr
        subst hr
        exact h
      · rw [if_neg hx]
        simp only [List.not_mem_nil, false_implies, implies_true, and_true]
        exact h
  | requestSettled => simp [uiStep, h]

/-- Runs from a state satisfying the model-identifier invariant only issue
requests with identifier `"gru"` or `"transformer"`. -/
theorem uiRun_modelId (es : List UiEvent) (s : UploadState)
    (h : ModelIdOk s.selectedModel) :
    ∀ r ∈ (uiRun s es).2, ModelIdOk r.modelType := by
  induction es generalizing s with
  | nil => simp [uiRun]
  | cons e es ih =>
      intro r hr
      simp only [uiRun, List.mem_append] at hr
      rcases hr with hr | hr
      · exact (uiStep_modelId s e h).2 r hr
      · exact ih (uiStep s e).1 (uiStep_modelId s e h).1 r hr

/-- C3: when the selected model changes while a file is uploaded and no
request is loading, the effect re-submits exactly the stored file to the
predict-continuous endpoint with the new identifier; and along every event
run of the interface from its initial state, every request carries the
identifier `"gru"` or `"transformer"`. -/
theorem modelSwitch_resubmits_and_modelIds_closed :
    (∀ (s : UploadState) (f : List Char) (m : String),
      s.uploadedFile = some f → s.loading = false → m ≠ s.selectedModel →
      (selectModel s m).2 = [{ fileName := f, modelType := m }]) ∧
    (∀ (es : List UiEvent) (r : PredictRequest),
      r ∈ (uiRun initialUploadState es).2 →
      r.modelType = "gru" ∨ r.modelType = "transformer") := by
  constructor
  · intro s f m hf hl hm
    unfold selectModel
    rw [if_neg hm]
    simp only [hf]
    rw [if_pos (by simp [hl])]
    rfl
  · intro es r hr
    exact uiRun_modelId es initialUploadState (Or.inl rfl) r hr

/-- Witness for C3: with `clip.mp4` uploaded, not loading and `"gru"`
selected, switching to `"transformer"` re-submits the same file with the
new identifier. -/
theorem modelSwitch_resubmits_witness :
    (selectModel
        { uploadedFile := some "clip.mp4".toList, uploadError := none,
          loading := false, selectedModel := "gru" } "transformer").2 =
      [{ fileName := "clip.mp4".toList, modelType := "transformer" }] :=
  modelSwitch_resubmits_and_modelIds_closed.1
    { uploadedFile := some "clip.mp4".toList, uploadError := none,
      loading := false, selectedModel := "gru" }
    "clip.mp4".toList "transformer" rfl rfl (by decide)

/-- C4: a chosen file whose lowercased final extension is not accepted sets
an upload error and is dropped — the stored file is unchanged and no
request is issued; an accepted extension stores the file and issues exactly
one predict request with the currently selected model. -/
theorem handleVideoUpload_extension_gate (s : UploadState)
    (name : List Char) :
    (fileExtOf name ∉ allowedTypes →
      (handleVideoUpload s name).2 = [] ∧
      (handleVideoUpload s name).1.uploadedFile = s.uploadedFile ∧
      ∃ msg, (handleVideoUpload s name).1.uploadError = some msg) ∧
    (fileExtOf name ∈ allowedTypes →
      (handleVideoUpload s name).1.uploadedFile = some name ∧
      (handleVideoUpload s name).2 =
        [{ fileName := name, modelType := s.selectedModel }]) := by
  constructor
  · intro hx
    simp only [handleVideoUpload]
    rw [if_neg hx]
    exact ⟨rfl, rfl, _, rfl⟩
  · intro hx
    simp only [handleVideoUpload]
    rw [if_pos hx]
    exact ⟨rfl, rfl⟩

/-- Witness for C4: `notes.txt` is rejected without a request, while
`clip.MP4` (uppercase extension) is stored and submitted with the selected
model. -/
theorem handleVideoUpload_extension_gate_witness :
    ((handleVideoUpload initialUploadState "notes.txt".toList).2 = [] ∧
      (handleVideoUpload initialUploadState
          "notes.txt".toList).1.uploadedFile = none ∧
      ∃ msg, (handleVideoUpload initialUploadState
          "notes.txt".toList).1.uploadError = some msg) ∧
    ((handleVideoUpload initialUploadState
        "clip.MP4".toList).1.uploadedFile = some "clip.MP4".toList ∧
      (handleVideoUpload initialUploadState "clip.MP4".toList).2 =
        [{ fileName := "clip.MP4".toList, modelType := "gru" }]) :=
  ⟨(handleVideoUpload_extension_gate initialUploadState
      "notes.txt".toList).1 (by decide),
    (handleVideoUpload_extension_gate initialUploadState
      "clip.MP4".toList).2 (by decide)⟩

/-- The possible outcomes of the fetch in `processVideoWithModel`: a
successful response carrying the parsed result, a non-ok HTTP response
carrying its optional `detail` field, or a thrown network error carrying
its optional message. -/
inductive FetchOutcome where
  | ok (result : ContinuousPredictions)
  | httpError (detail : Option String)
  | networkError (message : Option String)
deriving DecidableEq

/-- JavaScript `x || d` on an error-message field: the fallback is used for
a missing value and for the falsy empty string. -/
def jsOrDefault (x : Option String) (d : String) : String :=
  match x with
  | some m => if m = "" then d else m
  | none => d

/-- The `try` block of `processVideoWithModel`: a non-ok response throws
`new Error(error.detail || "Failed to process video")`; a network error
propagates its own message, read in the catch as
`error.message || "Failed to process video"`. -/
def fetchPhase (o : FetchOutcome) : Except String ContinuousPredictions :=
  match o with
  | .ok r => Except.ok r
  | .httpError d => Except.error (jsOrDefault d "Failed to process video")
  | .networkError m =>
      Except.error (jsOrDefault m "Failed to process video")

/-- The externally observable outcome of one `processVideoWithModel` call:
whether `onPredictFromVideo` was invoked and with what, the error message
set, and the final value of the `loading` flag. -/
structure ProcessOutcome where
  delivered : Option ContinuousPredictions
  errorMessage : Option String
  loadingAtEnd : Bool
deriving DecidableEq

/-- `processVideoWithModel`, observed per fetch outcome: `setLoading(true)`
and the error resets happen first; on success the result is delivered via
`onPredictFromVideo`; on any caught error the message is stored via
`setUploadError`/`setError` and nothing is delivered; the `finally` clause
clears `loading` on both paths. -/
def processVideoWithModel (o : FetchOutcome) : ProcessOutcome :=
  let attempt := fetchPhase o
  match attempt with
  | .ok r =>
      { delivered := some r, errorMessage := none, loadingAtEnd := false }
  | .error e =>
      { delivered := none, errorMessage := some e, loadingAtEnd := false }

/-- C5: a failed predict request (non-ok HTTP response or thrown network
error) delivers no result — `onPredictFromVideo` is not invoked — and sets
an error message instead, while a successful request delivers exactly the
parsed result; `loading` is cleared on every path. -/
theorem processVideo_failure_no_result (o : FetchOutcome) :
    (processVideoWithModel o).loadingAtEnd = false ∧
    (∀ d, o = .httpError d →
      (processVideoWithModel o).delivered = none ∧
      (processVideoWithModel o).errorMessage =
        some (jsOrDefault d "Failed to process video")) ∧
    (∀ m, o = .networkError m →
      (processVideoWithModel o).delivered = none ∧
      (processVideoWithModel o).errorMessage =
        some (jsOrDefault m "Failed to process video")) ∧
    (∀ r, o = .ok r →
      (processVideoWithModel o).delivered = some r ∧
      (processVideoWithModel o).errorMessage = none) := by
  refine ⟨?_, ?_, ?_, ?_⟩
  · cases o <;> rfl
  · intro d hd
    subst hd
    exact ⟨rfl, rfl⟩
  · intro m hm
    subst hm
    exact ⟨rfl, rfl⟩
  · intro r hr
    subst hr
    exact ⟨rfl, rfl⟩

/-- Witness for C5: an HTTP failure with detail `"no video"` delivers
nothing and surfaces the detail, and a success delivers the result. -/
theorem processVideo_failure_no_result_witness :
    ((processVideoWithModel (.httpError (some "no video"))).delivered =
        none ∧
      (processVideoWithModel (.httpError (some "no video"))).errorMessage =
        some (jsOrDefault (some "no video") "Failed to process video")) ∧
    ((processVideoWithModel
          (.ok ⟨25, 3, [segResultA, segResultB]⟩)).delivered =
        some ⟨25, 3, [segResultA, segResultB]⟩ ∧
      (processVideoWithModel
          (.ok ⟨25, 3, [segResultA, segResultB]⟩)).errorMessage = none) :=
  ⟨(processVideo_failure_no_result
      (.httpError (some "no video"))).2.1 (some "no video") rfl,
    (processVideo_failure_no_result
      (.ok ⟨25, 3, [segResultA, segResultB]⟩)).2.2.2
      ⟨25, 3, [segResultA, segResultB]⟩ rfl⟩

/-- The numeric value `x.toFixed(2)` renders: `x` rounded to two decimal
places; the only transformation applied to a confidence before display. -/
def jsToFixed2 (q : ℚ) : ℚ :=
  (round (q * 100) : Int) / 100

/-- One rendered row of a top-5 list: the rank badge `index + 1`, the
action name, and the confidence text produced by `toFixed(2)`. -/
structure Top5Row where
  rankLabel : Nat
  shownName : String
  shownConfidence : ℚ
deriving DecidableEq

/-- The row rendered for the prediction at `index` of a top-5 list. -/
def top5Row (index : Nat) (p : Prediction) : Top5Row :=
  { rankLabel := index + 1, shownName := p.action_name,
    shownConfidence := jsToFixed2 p.confidence }

/-- The top-5 rows `VideoPlayer` renders:
`predictions[currentSegment]?.top5_predictions.slice(0, 5).map(...)` —
optional chaining renders nothing for an out-of-range segment, and the
slice keeps at most the first five entries. -/
def videoPlayerTop5Rows (predictions : List PredictionResult)
    (currentSegment : Nat) : List Top5Row :=
  match predictions[currentSegment]? with
  | none => []
  | some seg =>
      (seg.top5_predictions.take 5).enum.map fun ip => top5Row ip.1 ip.2

/-- The confidence `VideoPlayer`'s headline box renders:
`displayedPrediction.confidence.toFixed(2)`. -/
def videoPlayerTopShownConfidence (displayed : Prediction) : ℚ :=
  jsToFixed2 displayed.confidence

/-- The top-5 rows `PredictionDisplay` renders:
`top5_predictions.map(...)` over the whole list. -/
def predictionDisplayRows (top5 : List Prediction) : List Top5Row :=
  top5.enum.map fun ip => top5Row ip.1 ip.2

/-- The confidence `PredictionDisplay`'s headline box renders:
`top_prediction.confidence.toFixed(2)`. -/
def predictionDisplayTopShownConfidence (r : PredictionResult) : ℚ :=
  jsToFixed2 r.top_prediction.confidence

/-- C6: every confidence either component displays is the raw model-scale
number of the response rendered through `toFixed(2)` and nothing else — the
headline confidence and each top-5 row's confidence, in both `VideoPlayer`
and `PredictionDisplay`, are exactly `jsToFixed2` of the corresponding raw
confidence, with no re-normalisation, rescaling or clamping in between. -/
theorem displayed_confidence_is_raw_toFixed2 :
    (∀ d : Prediction,
      videoPlayerTopShownConfidence d = jsToFixed2 d.confidence) ∧
    (∀ (preds : List PredictionResult) (cur i : Nat)
        (seg : PredictionResult) (p : Prediction),
      preds[cur]? = some seg → i < 5 → seg.top5_predictions[i]? = some p →
      (videoPlayerTop5Rows preds cur)[i]?.map Top5Row.shownConfidence =
        some (jsToFixed2 p.confidence)) ∧
    (∀ r : PredictionResult,
      predictionDisplayTopShownConfidence r =
        jsToFixed2 r.top_prediction.confidence) ∧
    (∀ (top5 : List Prediction) (i : Nat) (p : Prediction),
      top5[i]? = some p →
      (predictionDisplayRows top5)[i]?.map Top5Row.shownConfidence =
        some (jsToFixed2 p.confidence)) := by
  refine ⟨fun d => rfl, ?_, fun r => rfl, ?_⟩
  · intro preds cur i seg p hseg hi hp
    simp only [videoPlayerTop5Rows, hseg]
    rw [List.getElem?_map, List.getElem?_enum, List.getElem?_take,
      if_pos hi, hp]
    rfl
  · intro top5 i p hp
    simp only [predictionDisplayRows]
    rw [List.getElem?_map, List.getElem?_enum, hp]
    rfl

/-- Witness for C6: in segment 0 of a concrete response, row 1 of the
`VideoPlayer` top-5 list shows exactly `toFixed(2)` of the raw second
confidence. -/
theorem displayed_confidence_is_raw_toFixed2_witness :
    (videoPlayerTop5Rows [segResultA, segResultB]
        0)[1]?.map Top5Row.shownConfidence =
      some (jsToFixed2 arabesquePred.confidence) :=
  displayed_confidence_is_raw_toFixed2.2.1 [segResultA, segResultB] 0 1
    segResultA arabesquePred rfl (by norm_num)
    (by simp [segResultA])

/-- C7: `VideoPlayer` slices the current segment's top-5 list to length 5
before mapping, so the number of rendered rows is
`min 5 (top5_predictions.length)`. -/
theorem videoPlayer_top5_row_count (preds : List PredictionResult)
    (cur : Nat) (seg : PredictionResult) (h : preds[cur]? = some seg) :
    (videoPlayerTop5Rows preds cur).length =
      min 5 seg.top5_predictions.length := by
  simp only [videoPlayerTop5Rows, h]
  rw [List.length_map, List.enum_length, List.length_take]

/-- Witness for C7: a segment carrying only two top-5 entries renders two
rows. -/
theorem videoPlayer_top5_row_count_witness :
    (videoPlayerTop5Rows [segResultA, segResultB] 0).length =
      min 5 segResultA.top5_predictions.length :=
  videoPlayer_top5_row_count [segResultA, segResultB] 0 segResultA rfl

/-- `top5_predictions[0].confidence`, the denominator of `VideoPlayer`'s
bar-width rule; the JavaScript access is undefined on an empty list, which
the invariant of interest rules out. -/
def firstConfidence (top5 : List Prediction) : ℚ :=
  match top5 with
  | [] => 0
  | p :: _ => p.confidence

/-- `Math.max(...xs)` over a list of numbers; only ever applied to a
nonempty list here (JavaScript yields negative infinity on an empty
spread). -/
def jsMathMax (l : List ℚ) : ℚ :=
  match l with
  | [] => 0
  | x :: xs => xs.foldl max x

/-- `PredictionDisplay`'s scaling denominator:
`Math.max(...top5_predictions.map((p) => p.confidence))`. -/
def maxConfidence (top5 : List Prediction) : ℚ :=
  jsMathMax (top5.map fun p => p.confidence)

/-- `VideoPlayer`'s bar-width rule:
`(confidence / top5_predictions[0].confidence) * 100`. -/
def vpBarWidth (top5 : List Prediction) (p : Prediction) : ℚ :=
  p.confidence / firstConfidence top5 * 100

/-- `PredictionDisplay`'s bar-width rule:
`(confidence / maxConfidence) * 100`. -/
def pdBarWidth (top5 : List Prediction) (p : Prediction) : ℚ :=
  p.confidence / maxConfidence top5 * 100

/-- The spec's ordering invariant on a top-5 list: scores non-increasing
and non-negative, with a positive leading score. -/
def SpecOrderedTop5 (top5 : List Prediction) : Prop :=
  List.Pairwise (fun a b => b.confidence ≤ a.confidence) top5 ∧
  (∀ p ∈ top5, 0 ≤ p.confidence) ∧
  0 < firstConfidence top5

/-- Folding `max` over elements all bounded by the accumulator returns the
accumulator. -/
theorem foldl_max_of_forall_le (xs : List ℚ) (x : ℚ)
    (h : ∀ y ∈ xs, y ≤ x) : xs.foldl max x = x := by
  induction xs generalizing x with
  | nil => rfl
  | cons y ys ih =>
      simp only [List.foldl_cons]
      rw [max_eq_left (h y (by simp))]
      exact ih x fun z hz => h z (by simp [hz])

/-- A sample prediction breaking the ordering invariant: a later entry
with a larger confidence than the leading one. -/
def overconfidentPred : Prediction :=
  { action_id := 5, action_name := "Cabriole", confidence := 18/10 }

/-- C8: under the spec's ordering invariant the maximum of the top-5
confidences is the first confidence, so `VideoPlayer`'s bar width (divide
by the first confidence) and `PredictionDisplay`'s bar width (divide by the
maximum confidence) agree on every entry and always lie in `[0, 100]`;
without the invariant `VideoPlayer`'s rule can exceed 100, as a list whose
second confidence exceeds its first shows. -/
theorem barWidth_rules_agree :
    (∀ top5 : List Prediction, SpecOrderedTop5 top5 →
      maxConfidence top5 = firstConfidence top5 ∧
      ∀ p ∈ top5, vpBarWidth top5 p = pdBarWidth top5 p ∧
        0 ≤ vpBarWidth top5 p ∧ vpBarWidth top5 p ≤ 100) ∧
    (¬ SpecOrderedTop5 [arabesquePred, overconfidentPred] ∧
      100 < vpBarWidth [arabesquePred, overconfidentPred]
        overconfidentPred) := by
  constructor
  · intro top5 hord
    obtain ⟨hpair, hnn, hpos⟩ := hord
    cases top5 with
    | nil => exact absurd hpos (by simp [firstConfidence])
    | cons q rest =>
        have hhead : ∀ b ∈ rest, b.confidence ≤ q.confidence :=
          (List.pairwise_cons.mp hpair).1
        have hfirst : firstConfidence (q :: rest) = q.confidence := rfl
        have hmax : maxConfidence (q :: rest) = q.confidence := by
          simp only [maxConfidence, List.map_cons, jsMathMax]
          exact foldl_max_of_forall_le _ _ (by
            intro y hy
            obtain ⟨b, hb, rfl⟩ := List.mem_map.mp hy
            exact hhead b hb)
        have hqpos : 0 < q.confidence := by rwa [hfirst] at hpos
        refine ⟨hmax, ?_⟩
        intro p hp
        have hle : p.confidence ≤ q.confidence := by
          rcases List.mem_cons.mp hp with rfl | hmem
          · exact le_refl _
          · exact hhead p hmem
        have hpnn : 0 ≤ p.confidence := hnn p hp
        have hrat : p.confidence / q.confidence ≤ 1 :=
          (div_le_one hqpos).mpr hle
        have hratnn : 0 ≤ p.confidence / q.confidence :=
          div_nonneg hpnn (le_of_lt hqpos)
        refine ⟨?_, ?_, ?_⟩
        · simp only [vpBarWidth, pdBarWidth, hmax, hfirst]
        · simp only [vpBarWidth, hfirst]
          nlinarith
        · simp only [vpBarWidth, hfirst]
          nlinarith
  · constructor
    · intro hord
      have := (List.pairwise_cons.mp hord.1).1 overconfidentPred
        (by simp)
      rw [show overconfidentPred.confidence = 18/10 from rfl,
        show arabesquePred.confidence = 6/10 from rfl] at this
      norm_num at this
    · show (100 : ℚ) < 18/10 / (6/10) * 100
      norm_num

/-- Witness for C8: on the spec-ordered list of a concrete segment, the
two bar-width rules agree on the second entry and the width is within
bounds. -/
theorem barWidth_rules_agree_witness :
    vpBarWidth [pirouettePred, arabesquePred] arabesquePred =
      pdBarWidth [pirouettePred, arabesquePred] arabesquePred ∧
    0 ≤ vpBarWidth [pirouettePred, arabesquePred] arabesquePred ∧
    vpBarWidth [pirouettePred, arabesquePred] arabesquePred ≤ 100 :=
  (barWidth_rules_agree.1 [pirouettePred, arabesquePred]
      ⟨by
        refine List.pairwise_cons.mpr ⟨?_, List.pairwise_singleton _ _⟩
        intro b hb
        rw [List.mem_singleton.mp hb]
        norm_num [arabesquePred, pirouettePred],
        by
          intro p hp
          rcases List.mem_cons.mp hp with rfl | hp
          · norm_num [pirouettePred]
          · rw [List.mem_singleton.mp hp]
            norm_num [arabesquePred],
        by norm_num [firstConfidence, pirouettePred]⟩).2
    arabesquePred (by simp)
